import Mathlib

/-!
Shallow embedding of `src/simulation/simulation.py` (repository
JeffersonLab/AIOP): a dynamic-nuclear-polarization target simulation.
Python floats are modelled as real numbers; the pseudo-random draws
consumed by `step` (`random.random()` for the trip decision and the
underlying uniform draw of `random.uniform` for the trip duration) are
passed in explicitly as a `Rand` record.
-/

namespace AIOP

/-- `ELECTRON_CHARGE = 1.602e-19` (module-level constant). -/
def ELECTRON_CHARGE : ℝ := 1.602e-19

/-- `single_exponential_polarization(dose, pmax, phi)`:
returns `pmax` if `dose <= 1e-12`, else `pmax * exp(-dose / phi)`. -/
noncomputable def single_exponential_polarization (dose pmax phi : ℝ) : ℝ :=
  if dose ≤ 1e-12 then pmax else pmax * Real.exp (-dose / phi)

/-- The mutable attributes of a `Simulation` object. -/
structure Simulation where
  beam_current : ℝ
  time_step : ℝ
  beam_area : ℝ
  microwave_frequency : ℝ
  pmax : ℝ
  phi : ℝ
  accumulated_dose : ℝ
  polarization : ℝ
  time_elapsed : ℝ
  in_trip : Bool
  trip_start : ℝ
  trip_duration : ℝ
  min_trip_duration : ℝ
  max_trip_duration : ℝ
  trip_prob_per_step : ℝ

/-- `Simulation.__init__`: stores the configuration parameters, pins
`pmax := 0.95` and `phi := 25.6E15 * 1.13` regardless of the arguments,
and initialises the state (`accumulated_dose = 0`,
`polarization = pmax` (the *argument*), `time_elapsed = 0`, no trip).
The Python constructor performs no parameter validation and always
produces an instance. -/
noncomputable def Simulation.init (beam_current time_step beam_area microwave_frequency
    pmax phi trip_rate_per_hour : ℝ) (trip_duration_min : ℝ × ℝ) :
    Simulation where
  beam_current := beam_current
  time_step := time_step
  beam_area := beam_area
  microwave_frequency := microwave_frequency
  pmax := 0.95
  phi := 25.6e15 * 1.13
  accumulated_dose := 0
  polarization := pmax
  time_elapsed := 0
  in_trip := false
  trip_start := 0
  trip_duration := 0
  min_trip_duration := trip_duration_min.1
  max_trip_duration := trip_duration_min.2
  trip_prob_per_step := trip_rate_per_hour / 3600
-- `phi` is received but, like `pmax`, ignored by the stored fields.

/-- The optional `action` dict passed to `step`: may override
`beam_current` and/or `microwave_frequency`. -/
structure SimAct where
  beam_current : Option ℝ
  microwave_frequency : Option ℝ

/-- Step 1 of `step`: RL/programmatic updates from the `action` dict. -/
def Simulation.applyAct (s : Simulation) (a : Option SimAct) : Simulation :=
  match a with
  | none => s
  | some act =>
    let s₁ := match act.beam_current with
      | none => s
      | some bc => { s with beam_current := bc }
    match act.microwave_frequency with
    | none => s₁
    | some mf => { s₁ with microwave_frequency := mf }

/-- The random draws `step` may consume: `trip_draw` is the value of
`random.random()` for the trip decision; `duration_draw` is the value of
the `random.random()` call inside `random.uniform(a, b) = a + (b-a)*random()`. -/
structure Rand where
  trip_draw : ℝ
  duration_draw : ℝ

/-- Step 2 of `step`: beam-trip logic. Returns the updated state and
`current_beam`, the beam current delivered this step. -/
noncomputable def Simulation.tripStep (s : Simulation) (r : Rand) :
    Simulation × ℝ :=
  if s.in_trip then
    let s₁ := if s.time_elapsed - s.trip_start > s.trip_duration then
        { s with in_trip := false } else s
    (s₁, if s₁.in_trip then 0 else s₁.beam_current)
  else
    let p_trip := s.trip_prob_per_step * s.time_step
    if r.trip_draw < p_trip then
      ({ s with in_trip := true, trip_start := s.time_elapsed,
                trip_duration := s.min_trip_duration +
                  (s.max_trip_duration - s.min_trip_duration) * r.duration_draw },
       0)
    else
      (s, s.beam_current)

/-- Step 3 of `step`: dose increment if the beam is on. -/
noncomputable def Simulation.doseStep (s : Simulation) (current_beam : ℝ) :
    Simulation :=
  if current_beam > 0 then
    { s with accumulated_dose := s.accumulated_dose +
        current_beam * s.time_step / (ELECTRON_CHARGE * s.beam_area) }
  else s

/-- Step 5 of `step`: the microwave effect,
`-(microwave_frequency - 140.1) * 0.0001`. -/
def microwaveEffect (f : ℝ) : ℝ := -(f - 140.1) * 0.0001

/-- The unclamped polarization `base_pol + microwave_effect` combined in
`step` (line `self.polarization = base_pol + microwave_effect`), as a
function of the state after the dose update. -/
noncomputable def Simulation.preClampPol (s : Simulation) : ℝ :=
  single_exponential_polarization s.accumulated_dose s.pmax s.phi +
    microwaveEffect s.microwave_frequency

/-- The dict returned by `step`. -/
structure StepResult where
  time : ℝ
  polarization : ℝ
  accumulated_dose : ℝ
  beam_current : ℝ
  in_trip : Bool
  microwave_frequency : ℝ

/-- `Simulation.step(action)`: applies the action overrides, runs the
trip logic, accumulates dose, recomputes the polarization (clamped to
[0, 1]), advances time, and returns the updated object together with the
step-data dict. -/
noncomputable def Simulation.step (s : Simulation) (a : Option SimAct)
    (r : Rand) : Simulation × StepResult :=
  let s₁ := s.applyAct a
  let tr := s₁.tripStep r
  let s₂ := tr.1
  let current_beam := tr.2
  let s₃ := s₂.doseStep current_beam
  let pol := max 0 (min 1 s₃.preClampPol)
  let s₄ := { s₃ with polarization := pol }
  let s₅ := { s₄ with time_elapsed := s₄.time_elapsed + s₄.time_step }
  (s₅,
   { time := s₅.time_elapsed
     polarization := s₅.polarization
     accumulated_dose := s₅.accumulated_dose
     beam_current := current_beam
     in_trip := s₅.in_trip
     microwave_frequency := s₅.microwave_frequency })

/-- `Simulation.reset()`: zeroes the dynamic state, sets
`polarization = self.pmax`, and leaves the configuration untouched. -/
def Simulation.reset (s : Simulation) : Simulation :=
  { s with accumulated_dose := 0
           polarization := s.pmax
           time_elapsed := 0
           in_trip := false
           trip_start := 0
           trip_duration := 0 }

/-- The pre-clamp polarization a call `step(action)` computes from state
`s` and draws `r`: the value `base_pol + microwave_effect` before the
`max(0.0, min(1.0, ·))` clamp. -/
noncomputable def Simulation.stepPreClamp (s : Simulation) (a : Option SimAct)
    (r : Rand) : ℝ :=
  ((((s.applyAct a).tripStep r).1).doseStep (((s.applyAct a).tripStep r).2)).preClampPol

section FrameLemmas

variable (s : Simulation) (a : Option SimAct) (r : Rand) (cb f : ℝ)

@[simp] lemma applyAct_time_step : (s.applyAct a).time_step = s.time_step := by
  rcases a with _ | ⟨(_ | bc), (_ | mf)⟩ <;> rfl

@[simp] lemma applyAct_beam_area : (s.applyAct a).beam_area = s.beam_area := by
  rcases a with _ | ⟨(_ | bc), (_ | mf)⟩ <;> rfl

@[simp] lemma applyAct_pmax : (s.applyAct a).pmax = s.pmax := by
  rcases a with _ | ⟨(_ | bc), (_ | mf)⟩ <;> rfl

@[simp] lemma applyAct_phi : (s.applyAct a).phi = s.phi := by
  rcases a with _ | ⟨(_ | bc), (_ | mf)⟩ <;> rfl

@[simp] lemma applyAct_accumulated_dose :
    (s.applyAct a).accumulated_dose = s.accumulated_dose := by
  rcases a with _ | ⟨(_ | bc), (_ | mf)⟩ <;> rfl

@[simp] lemma applyAct_time_elapsed :
    (s.applyAct a).time_elapsed = s.time_elapsed := by
  rcases a with _ | ⟨(_ | bc), (_ | mf)⟩ <;> rfl

@[simp] lemma applyAct_in_trip : (s.applyAct a).in_trip = s.in_trip := by
  rcases a with _ | ⟨(_ | bc), (_ | mf)⟩ <;> rfl

@[simp] lemma applyAct_trip_start : (s.applyAct a).trip_start = s.trip_start := by
  rcases a with _ | ⟨(_ | bc), (_ | mf)⟩ <;> rfl

@[simp] lemma applyAct_trip_duration :
    (s.applyAct a).trip_duration = s.trip_duration := by
  rcases a with _ | ⟨(_ | bc), (_ | mf)⟩ <;> rfl

@[simp] lemma applyAct_min_trip_duration :
    (s.applyAct a).min_trip_duration = s.min_trip_duration := by
  rcases a with _ | ⟨(_ | bc), (_ | mf)⟩ <;> rfl

@[simp] lemma applyAct_max_trip_duration :
    (s.applyAct a).max_trip_duration = s.max_trip_duration := by
  rcases a with _ | ⟨(_ | bc), (_ | mf)⟩ <;> rfl

@[simp] lemma applyAct_trip_prob_per_step :
    (s.applyAct a).trip_prob_per_step = s.trip_prob_per_step := by
  rcases a with _ | ⟨(_ | bc), (_ | mf)⟩ <;> rfl

@[simp] lemma applyAct_none : s.applyAct none = s := rfl

lemma tripStep_end (h : s.in_trip = true)
    (hd : s.trip_duration < s.time_elapsed - s.trip_start) :
    s.tripStep r = ({ s with in_trip := false }, s.beam_current) := by
  simp only [Simulation.tripStep, h, if_true, gt_iff_lt, if_pos hd]
  rfl

lemma tripStep_hold (h : s.in_trip = true)
    (hd : ¬ s.trip_duration < s.time_elapsed - s.trip_start) :
    s.tripStep r = (s, 0) := by
  simp only [Simulation.tripStep, h, if_true, gt_iff_lt, if_neg hd]

lemma tripStep_new_trip (h : s.in_trip = false)
    (hlt : r.trip_draw < s.trip_prob_per_step * s.time_step) :
    s.tripStep r =
      ({ s with in_trip := true
                trip_start := s.time_elapsed
                trip_duration := s.min_trip_duration +
                  (s.max_trip_duration - s.min_trip_duration) * r.duration_draw },
       0) := by
  simp only [Simulation.tripStep, h, Bool.false_eq_true, if_false, if_pos hlt]

lemma tripStep_normal (h : s.in_trip = false)
    (hge : ¬ r.trip_draw < s.trip_prob_per_step * s.time_step) :
    s.tripStep r = (s, s.beam_current) := by
  simp only [Simulation.tripStep, h, Bool.false_eq_true, if_false, if_neg hge]

@[simp] lemma tripStep_fst_time_step : (s.tripStep r).1.time_step = s.time_step := by
  simp only [Simulation.tripStep]; split_ifs <;> rfl

@[simp] lemma tripStep_fst_beam_area : (s.tripStep r).1.beam_area = s.beam_area := by
  simp only [Simulation.tripStep]; split_ifs <;> rfl

@[simp] lemma tripStep_fst_pmax : (s.tripStep r).1.pmax = s.pmax := by
  simp only [Simulation.tripStep]; split_ifs <;> rfl

@[simp] lemma tripStep_fst_phi : (s.tripStep r).1.phi = s.phi := by
  simp only [Simulation.tripStep]; split_ifs <;> rfl

@[simp] lemma tripStep_fst_accumulated_dose :
    (s.tripStep r).1.accumulated_dose = s.accumulated_dose := by
  simp only [Simulation.tripStep]; split_ifs <;> rfl

@[simp] lemma tripStep_fst_microwave_frequency :
    (s.tripStep r).1.microwave_frequency = s.microwave_frequency := by
  simp only [Simulation.tripStep]; split_ifs <;> rfl

lemma doseStep_pos (h : 0 < cb) :
    s.doseStep cb = { s with accumulated_dose := s.accumulated_dose +
      cb * s.time_step / (ELECTRON_CHARGE * s.beam_area) } := by
  simp only [Simulation.doseStep, if_pos h]

lemma doseStep_nonpos (h : ¬ 0 < cb) : s.doseStep cb = s := by
  simp only [Simulation.doseStep, if_neg h]

@[simp] lemma doseStep_accumulated_dose :
    (s.doseStep cb).accumulated_dose =
      if 0 < cb then s.accumulated_dose +
        cb * s.time_step / (ELECTRON_CHARGE * s.beam_area)
      else s.accumulated_dose := by
  unfold Simulation.doseStep; split_ifs <;> rfl

@[simp] lemma doseStep_pmax : (s.doseStep cb).pmax = s.pmax := by
  unfold Simulation.doseStep; split_ifs <;> rfl

@[simp] lemma doseStep_phi : (s.doseStep cb).phi = s.phi := by
  unfold Simulation.doseStep; split_ifs <;> rfl

@[simp] lemma doseStep_microwave_frequency :
    (s.doseStep cb).microwave_frequency = s.microwave_frequency := by
  unfold Simulation.doseStep; split_ifs <;> rfl

@[simp] lemma doseStep_in_trip : (s.doseStep cb).in_trip = s.in_trip := by
  unfold Simulation.doseStep; split_ifs <;> rfl

@[simp] lemma doseStep_trip_start : (s.doseStep cb).trip_start = s.trip_start := by
  unfold Simulation.doseStep; split_ifs <;> rfl

@[simp] lemma doseStep_trip_duration :
    (s.doseStep cb).trip_duration = s.trip_duration := by
  unfold Simulation.doseStep; split_ifs <;> rfl

@[simp] lemma step_fst_polarization :
    (s.step a r).1.polarization = max 0 (min 1 (s.stepPreClamp a r)) := rfl

@[simp] lemma step_res_polarization :
    (s.step a r).2.polarization = (s.step a r).1.polarization := rfl

@[simp] lemma step_fst_accumulated_dose :
    (s.step a r).1.accumulated_dose =
      ((((s.applyAct a).tripStep r).1).doseStep
        (((s.applyAct a).tripStep r).2)).accumulated_dose := rfl

@[simp] lemma step_res_accumulated_dose :
    (s.step a r).2.accumulated_dose = (s.step a r).1.accumulated_dose := rfl

@[simp] lemma step_res_beam_current :
    (s.step a r).2.beam_current = ((s.applyAct a).tripStep r).2 := rfl

@[simp] lemma step_fst_in_trip :
    (s.step a r).1.in_trip = ((s.applyAct a).tripStep r).1.in_trip := by
  simp [Simulation.step]

@[simp] lemma step_res_in_trip :
    (s.step a r).2.in_trip = (s.step a r).1.in_trip := rfl

@[simp] lemma step_fst_trip_start :
    (s.step a r).1.trip_start = ((s.applyAct a).tripStep r).1.trip_start := by
  simp [Simulation.step]

@[simp] lemma step_fst_trip_duration :
    (s.step a r).1.trip_duration = ((s.applyAct a).tripStep r).1.trip_duration := by
  simp [Simulation.step]

end FrameLemmas

/-- An engine built with the source's default optional arguments and
`beam_current = 1e-9 A`, `time_step = 1 s`, `beam_area = 1 cm²`. -/
noncomputable def simA : Simulation :=
  Simulation.init 1e-9 1 1 140.1 0.95 (25.6e15 * 1.13) 12 (20, 300)

/-- An engine built with an (unvalidated) negative `time_step`. -/
noncomputable def simBad : Simulation :=
  Simulation.init 1 (-5) 1 140.1 0.95 (25.6e15 * 1.13) 12 (20, 300)

/-- A state in the middle of a beam trip whose duration has expired. -/
noncomputable def simTripped : Simulation where
  beam_current := 2
  time_step := 1
  beam_area := 1
  microwave_frequency := 140.1
  pmax := 0.95
  phi := 25.6e15 * 1.13
  accumulated_dose := 0
  polarization := 0.95
  time_elapsed := 100
  in_trip := true
  trip_start := 0
  trip_duration := 10
  min_trip_duration := 20
  max_trip_duration := 300
  trip_prob_per_step := 1 / 300

/-- A draw pair that avoids a new trip for `simA` (`0.9 ≥ 1/300`). -/
noncomputable def randHi : Rand := ⟨9 / 10, 0⟩

/-- A draw pair that forces a new trip for `simA` (`0 < 1/300`), with
`duration_draw = 1/2`. -/
noncomputable def randLo : Rand := ⟨0, 1 / 2⟩

/-- With `pmax = 0.95` and a positive decay constant, the single-exponential
base polarization always lies in `[0, 1]`. -/
lemma single_exponential_bounds (dose phi : ℝ) (hphi : 0 < phi) :
    0 ≤ single_exponential_polarization dose 0.95 phi ∧
    single_exponential_polarization dose 0.95 phi ≤ 1 := by
  unfold single_exponential_polarization
  split_ifs with h
  · norm_num
  · push_neg at h
    have hd : (0 : ℝ) < dose := lt_trans (by norm_num) h
    have h0 : 0 ≤ dose / phi := div_nonneg hd.le hphi.le
    have hz : -dose / phi ≤ 0 := by rw [neg_div]; linarith
    have he : Real.exp (-dose / phi) ≤ 1 := by
      calc Real.exp (-dose / phi) ≤ Real.exp 0 := Real.exp_le_exp.mpr hz
        _ = 1 := Real.exp_zero
    have hep : 0 < Real.exp (-dose / phi) := Real.exp_pos _
    constructor
    · nlinarith
    · nlinarith

lemma applyAct_freq (s : Simulation) (f : ℝ) :
    s.applyAct (some ⟨none, some f⟩) = { s with microwave_frequency := f } := rfl

lemma tripStep_set_freq (s : Simulation) (r : Rand) (f : ℝ) :
    Simulation.tripStep { s with microwave_frequency := f } r =
      ({ (s.tripStep r).1 with microwave_frequency := f }, (s.tripStep r).2) := by
  simp only [Simulation.tripStep]
  split_ifs <;> rfl

lemma doseStep_set_freq (s : Simulation) (cb f : ℝ) :
    Simulation.doseStep { s with microwave_frequency := f } cb =
      { s.doseStep cb with microwave_frequency := f } := by
  simp only [Simulation.doseStep]
  split_ifs <;> rfl

/-- Claim C1, counterexample: constructing the engine with non-positive
`time_step` and `beam_area` and `pmax > 1` does *not* fail: an engine
instance is produced, carrying exactly those invalid values (the
constructor has no validation or error path at all). -/
theorem init_unvalidated_counterexample :
    (Simulation.init 1 (-1) (-1) 140.1 2 1 12 (20, 300)).time_step = -1 ∧
    (Simulation.init 1 (-1) (-1) 140.1 2 1 12 (20, 300)).beam_area = -1 ∧
    (Simulation.init 1 (-1) (-1) 140.1 2 1 12 (20, 300)).polarization = 2 :=
  ⟨rfl, rfl, rfl⟩

/-- Claim C1 as amended: the constructor performs no parameter validation:
every parameter combination — including non-positive `time_step` or
`beam_area` and `pmax` outside `(0, 1]` — produces an engine instance
storing the given `beam_current`, `time_step` and `beam_area`. -/
theorem init_total_no_validation (bc ts ba mf pm ph tr : ℝ) (dm : ℝ × ℝ) :
    (Simulation.init bc ts ba mf pm ph tr dm).beam_current = bc ∧
    (Simulation.init bc ts ba mf pm ph tr dm).time_step = ts ∧
    (Simulation.init bc ts ba mf pm ph tr dm).beam_area = ba :=
  ⟨rfl, rfl, rfl⟩

/-- Claim C2: for every engine state, action override and random draw, the
polarization field after a `step()` lies in `[0, 1]`, and the polarization
in the returned snapshot is that same clamped field. -/
theorem step_polarization_bounds (s : Simulation) (a : Option SimAct) (r : Rand) :
    0 ≤ (s.step a r).1.polarization ∧ (s.step a r).1.polarization ≤ 1 ∧
    (s.step a r).2.polarization = (s.step a r).1.polarization := by
  refine ⟨?_, ?_, rfl⟩
  · rw [step_fst_polarization]
    exact le_max_left _ _
  · rw [step_fst_polarization]
    exact max_le (by norm_num) (min_le_left _ _)

/-- Claim C3 as amended: provided `time_step > 0` and `beam_area > 0`,
`accumulated_dose` never decreases across a `step()`; when the delivered
current is strictly positive the dose changes by exactly
`current * time_step / (ELECTRON_CHARGE * beam_area)` (a strict increase),
and otherwise it is unchanged. -/
theorem dose_monotone_and_exact (s : Simulation) (a : Option SimAct) (r : Rand)
    (hts : 0 < s.time_step) (hba : 0 < s.beam_area) :
    s.accumulated_dose ≤ (s.step a r).1.accumulated_dose ∧
    (0 < (s.step a r).2.beam_current →
      (s.step a r).1.accumulated_dose = s.accumulated_dose +
        (s.step a r).2.beam_current * s.time_step /
          (ELECTRON_CHARGE * s.beam_area) ∧
      s.accumulated_dose < (s.step a r).1.accumulated_dose) ∧
    ((s.step a r).2.beam_current ≤ 0 →
      (s.step a r).1.accumulated_dose = s.accumulated_dose) := by
  have hq : (0 : ℝ) < ELECTRON_CHARGE := by norm_num [ELECTRON_CHARGE]
  simp only [step_fst_accumulated_dose, step_res_beam_current,
    doseStep_accumulated_dose, tripStep_fst_accumulated_dose,
    tripStep_fst_time_step, tripStep_fst_beam_area,
    applyAct_accumulated_dose, applyAct_time_step, applyAct_beam_area]
  split_ifs with h
  · have hpos : 0 < ((s.applyAct a).tripStep r).2 * s.time_step /
        (ELECTRON_CHARGE * s.beam_area) :=
      div_pos (mul_pos h hts) (mul_pos hq hba)
    exact ⟨by linarith, fun _ => ⟨rfl, by linarith⟩,
      fun hc => absurd h (not_lt.mpr hc)⟩
  · exact ⟨le_refl _, fun hc => absurd hc h, fun _ => rfl⟩

/-- Witness for the amended C3 theorem at a concrete engine and draw. -/
theorem dose_monotone_and_exact_witness :
    0 < simA.time_step ∧ 0 < simA.beam_area ∧
    simA.accumulated_dose ≤ (simA.step none randHi).1.accumulated_dose :=
  ⟨by norm_num [simA, Simulation.init], by norm_num [simA, Simulation.init],
   (dose_monotone_and_exact simA none randHi
      (by norm_num [simA, Simulation.init])
      (by norm_num [simA, Simulation.init])).1⟩

/-- Claim C3, counterexample: on an engine constructed (without any
validation) with `time_step = -5`, a trip-free step with positive delivered
current makes `accumulated_dose` strictly *decrease*. -/
theorem dose_decreasing_counterexample :
    (simBad.step none randHi).1.accumulated_dose < simBad.accumulated_dose := by
  have hn : simBad.in_trip = false := rfl
  have hge : ¬ randHi.trip_draw <
      simBad.trip_prob_per_step * simBad.time_step := by
    norm_num [simBad, Simulation.init, randHi]
  have h3 := tripStep_normal simBad randHi hn hge
  rw [step_fst_accumulated_dose]
  simp only [applyAct_none, h3]
  rw [doseStep_accumulated_dose, if_pos (by norm_num [simBad, Simulation.init] :
    (0 : ℝ) < simBad.beam_current)]
  norm_num [simBad, Simulation.init, ELECTRON_CHARGE]

/-- Claim C8: the constructor accepts `pmax` and `phi` arguments but
unconditionally stores the fixed constants `0.95` and `25.6e15 * 1.13`,
regardless of the values passed. -/
theorem init_pins_pmax_phi (bc ts ba mf pm ph tr : ℝ) (dm : ℝ × ℝ) :
    (Simulation.init bc ts ba mf pm ph tr dm).pmax = 0.95 ∧
    (Simulation.init bc ts ba mf pm ph tr dm).phi = 25.6e15 * 1.13 :=
  ⟨rfl, rfl⟩

/-- Claim C9: `reset()` sets `accumulated_dose = 0`,
`polarization = pmax`, `time_elapsed = 0`, `in_trip = false`,
`trip_start = 0`, `trip_duration = 0`, and leaves every configuration
field unchanged. -/
theorem reset_state_and_frame (s : Simulation) :
    s.reset.accumulated_dose = 0 ∧
    s.reset.polarization = s.pmax ∧
    s.reset.time_elapsed = 0 ∧
    s.reset.in_trip = false ∧
    s.reset.trip_start = 0 ∧
    s.reset.trip_duration = 0 ∧
    s.reset.beam_current = s.beam_current ∧
    s.reset.beam_area = s.beam_area ∧
    s.reset.time_step = s.time_step ∧
    s.reset.microwave_frequency = s.microwave_frequency ∧
    s.reset.pmax = s.pmax ∧
    s.reset.phi = s.phi ∧
    s.reset.min_trip_duration = s.min_trip_duration ∧
    s.reset.max_trip_duration = s.max_trip_duration ∧
    s.reset.trip_prob_per_step = s.trip_prob_per_step :=
  ⟨rfl, rfl, rfl, rfl, rfl, rfl, rfl, rfl, rfl, rfl, rfl, rfl, rfl, rfl, rfl⟩

/-- Claim C10: immediately after construction the polarization field equals
the caller-supplied `pmax` argument (not the pinned `0.95`), `reset()` sets
it to the pinned `0.95`, so for any argument other than `0.95` the two
differ, and for arguments outside `[0, 1]` the just-constructed engine
violates the polarization-bounds invariant. -/
theorem init_polarization_from_argument (bc ts ba mf pm ph tr : ℝ) (dm : ℝ × ℝ) :
    (Simulation.init bc ts ba mf pm ph tr dm).polarization = pm ∧
    ((Simulation.init bc ts ba mf pm ph tr dm).reset).polarization = 0.95 ∧
    (pm ≠ 0.95 →
      (Simulation.init bc ts ba mf pm ph tr dm).polarization ≠
        ((Simulation.init bc ts ba mf pm ph tr dm).reset).polarization) ∧
    ((pm < 0 ∨ 1 < pm) →
      ¬ (0 ≤ (Simulation.init bc ts ba mf pm ph tr dm).polarization ∧
         (Simulation.init bc ts ba mf pm ph tr dm).polarization ≤ 1)) := by
  refine ⟨rfl, rfl, fun h => h, ?_⟩
  rintro (h | h) ⟨h0, h1⟩
  · have hpol : (Simulation.init bc ts ba mf pm ph tr dm).polarization = pm := rfl
    rw [hpol] at h0
    linarith
  · have hpol : (Simulation.init bc ts ba mf pm ph tr dm).polarization = pm := rfl
    rw [hpol] at h1
    linarith

/-- Witness for C10 at the concrete constructor argument `pmax = 2`. -/
theorem init_polarization_from_argument_witness :
    (Simulation.init 1 1 1 140.1 2 1 12 (20, 300)).polarization ≠
      ((Simulation.init 1 1 1 140.1 2 1 12 (20, 300)).reset).polarization ∧
    ¬ (0 ≤ (Simulation.init 1 1 1 140.1 2 1 12 (20, 300)).polarization ∧
       (Simulation.init 1 1 1 140.1 2 1 12 (20, 300)).polarization ≤ 1) :=
  ⟨(init_polarization_from_argument 1 1 1 140.1 2 1 12 (20, 300)).2.2.1
      (by norm_num),
   (init_polarization_from_argument 1 1 1 140.1 2 1 12 (20, 300)).2.2.2
      (Or.inr (by norm_num))⟩

/-- Claim C4: the base polarization equals `pmax` exactly when the dose is
at most `1e-12` and `pmax * exp(-dose/phi)` otherwise; and for a step whose
effective microwave frequency is `140.1`, the returned polarization equals
that base value exactly (the clamp is a no-op, and at effectively-zero dose
the returned polarization is exactly `pmax`). -/
theorem step_reference_frequency_polarization (s : Simulation)
    (a : Option SimAct) (r : Rand)
    (hpmax : s.pmax = 0.95) (hphi : s.phi = 25.6e15 * 1.13)
    (hf : (s.applyAct a).microwave_frequency = 140.1) :
    (∀ dose : ℝ,
      (dose ≤ 1e-12 →
        single_exponential_polarization dose s.pmax s.phi = s.pmax) ∧
      (1e-12 < dose →
        single_exponential_polarization dose s.pmax s.phi =
          s.pmax * Real.exp (-dose / s.phi))) ∧
    (s.step a r).2.polarization =
      single_exponential_polarization ((s.step a r).2.accumulated_dose)
        s.pmax s.phi ∧
    ((s.step a r).2.accumulated_dose ≤ 1e-12 →
      (s.step a r).2.polarization = s.pmax) := by
  have hbase : ∀ dose : ℝ,
      (dose ≤ 1e-12 →
        single_exponential_polarization dose s.pmax s.phi = s.pmax) ∧
      (1e-12 < dose →
        single_exponential_polarization dose s.pmax s.phi =
          s.pmax * Real.exp (-dose / s.phi)) := by
    intro dose
    constructor
    · intro h
      simp only [single_exponential_polarization, if_pos h]
    · intro h
      simp only [single_exponential_polarization, if_neg (not_le.mpr h)]
  have hmf3 : ((((s.applyAct a).tripStep r).1).doseStep
      (((s.applyAct a).tripStep r).2)).microwave_frequency = 140.1 := by
    simp [hf]
  have hpm3 : ((((s.applyAct a).tripStep r).1).doseStep
      (((s.applyAct a).tripStep r).2)).pmax = s.pmax := by simp
  have hph3 : ((((s.applyAct a).tripStep r).1).doseStep
      (((s.applyAct a).tripStep r).2)).phi = s.phi := by simp
  have hval : s.stepPreClamp a r =
      single_exponential_polarization ((s.step a r).2.accumulated_dose)
        s.pmax s.phi := by
    simp only [Simulation.stepPreClamp, Simulation.preClampPol, hmf3, hpm3,
      hph3, step_res_accumulated_dose, step_fst_accumulated_dose]
    have hme : microwaveEffect 140.1 = 0 := by norm_num [microwaveEffect]
    rw [hme, add_zero]
  have hphipos : (0 : ℝ) < 25.6e15 * 1.13 := by norm_num
  have hb : 0 ≤ single_exponential_polarization
        ((s.step a r).2.accumulated_dose) s.pmax s.phi ∧
      single_exponential_polarization
        ((s.step a r).2.accumulated_dose) s.pmax s.phi ≤ 1 := by
    rw [hpmax, hphi]
    exact single_exponential_bounds _ _ hphipos
  have hpol : (s.step a r).2.polarization =
      single_exponential_polarization ((s.step a r).2.accumulated_dose)
        s.pmax s.phi := by
    rw [step_res_polarization, step_fst_polarization, hval,
      min_eq_right hb.2, max_eq_right hb.1]
  refine ⟨hbase, hpol, ?_⟩
  intro h
  rw [hpol]
  exact (hbase _).1 h

/-- Witness for C4 at a concrete default-built engine and trip-free draw. -/
theorem step_reference_frequency_polarization_witness :
    simA.pmax = 0.95 ∧ simA.phi = 25.6e15 * 1.13 ∧
    (simA.applyAct none).microwave_frequency = 140.1 ∧
    (simA.step none randHi).2.polarization =
      single_exponential_polarization
        ((simA.step none randHi).2.accumulated_dose) simA.pmax simA.phi :=
  ⟨rfl, rfl, rfl,
   (step_reference_frequency_polarization simA none randHi rfl rfl rfl).2.1⟩

/-- Claim C5: a `step()` that starts in the Tripped state with
`time_elapsed - trip_start > trip_duration` clears the trip during that
step and delivers the (possibly action-overridden) `beam_current`, not 0,
in that same step. -/
theorem trip_end_resumes_beam (s : Simulation) (a : Option SimAct) (r : Rand)
    (ht : s.in_trip = true)
    (hd : s.trip_duration < s.time_elapsed - s.trip_start) :
    (s.step a r).1.in_trip = false ∧ (s.step a r).2.in_trip = false ∧
    (s.step a r).2.beam_current = (s.applyAct a).beam_current := by
  have h1 : (s.applyAct a).in_trip = true := by simp [ht]
  have h2 : (s.applyAct a).trip_duration <
      (s.applyAct a).time_elapsed - (s.applyAct a).trip_start := by
    simpa using hd
  have h3 := tripStep_end (s.applyAct a) r h1 h2
  refine ⟨?_, ?_, ?_⟩
  · rw [step_fst_in_trip, h3]
  · rw [step_res_in_trip, step_fst_in_trip, h3]
  · rw [step_res_beam_current, h3]

/-- Witness for C5 at a concrete expired-trip state. -/
theorem trip_end_resumes_beam_witness :
    simTripped.in_trip = true ∧
    simTripped.trip_duration <
      simTripped.time_elapsed - simTripped.trip_start ∧
    (simTripped.step none randHi).1.in_trip = false ∧
    (simTripped.step none randHi).2.beam_current =
      (simTripped.applyAct none).beam_current := by
  have hd : simTripped.trip_duration <
      simTripped.time_elapsed - simTripped.trip_start := by
    norm_num [simTripped]
  have h := trip_end_resumes_beam simTripped none randHi rfl hd
  exact ⟨rfl, hd, h.1, h.2.2⟩

/-- Claim C6: a `step()` from the Normal state enters the Tripped state iff
the uniform draw is strictly below `trip_prob_per_step * time_step`; on
entry it sets `trip_start = time_elapsed`, draws the trip duration as
`min + (max - min) * u` (which lies in `[min, max]` for `u ∈ [0, 1]` and
`min ≤ max`) and delivers 0 current; otherwise it delivers `beam_current`;
and every later step taken while
`time_elapsed - trip_start ≤ trip_duration` stays Tripped and delivers 0. -/
theorem trip_entry_and_hold (s : Simulation) (a : Option SimAct) (r : Rand)
    (hn : s.in_trip = false) :
    ((s.step a r).1.in_trip = true ↔
      r.trip_draw < s.trip_prob_per_step * s.time_step) ∧
    (r.trip_draw < s.trip_prob_per_step * s.time_step →
      (s.step a r).1.trip_start = s.time_elapsed ∧
      (s.step a r).1.trip_duration = s.min_trip_duration +
        (s.max_trip_duration - s.min_trip_duration) * r.duration_draw ∧
      (0 ≤ r.duration_draw → r.duration_draw ≤ 1 →
        s.min_trip_duration ≤ s.max_trip_duration →
        s.min_trip_duration ≤ (s.step a r).1.trip_duration ∧
        (s.step a r).1.trip_duration ≤ s.max_trip_duration) ∧
      (s.step a r).2.beam_current = 0) ∧
    (¬ r.trip_draw < s.trip_prob_per_step * s.time_step →
      (s.step a r).1.in_trip = false ∧
      (s.step a r).2.beam_current = (s.applyAct a).beam_current) ∧
    (∀ (s' : Simulation) (a' : Option SimAct) (r' : Rand),
      s'.in_trip = true →
      s'.time_elapsed - s'.trip_start ≤ s'.trip_duration →
      (s'.step a' r').2.beam_current = 0 ∧
      (s'.step a' r').1.in_trip = true) := by
  have hold : ∀ (s' : Simulation) (a' : Option SimAct) (r' : Rand),
      s'.in_trip = true →
      s'.time_elapsed - s'.trip_start ≤ s'.trip_duration →
      (s'.step a' r').2.beam_current = 0 ∧
      (s'.step a' r').1.in_trip = true := by
    intro s' a' r' ht' hd'
    have h1' : (s'.applyAct a').in_trip = true := by simp [ht']
    have h2' : ¬ (s'.applyAct a').trip_duration <
        (s'.applyAct a').time_elapsed - (s'.applyAct a').trip_start := by
      simpa using not_lt.mpr hd'
    have h3' := tripStep_hold (s'.applyAct a') r' h1' h2'
    constructor
    · rw [step_res_beam_current, h3']
    · rw [step_fst_in_trip, h3']
      exact h1'
  have h1 : (s.applyAct a).in_trip = false := by simp [hn]
  by_cases hlt : r.trip_draw < s.trip_prob_per_step * s.time_step
  · have h3 := tripStep_new_trip (s.applyAct a) r h1 (by simpa using hlt)
    have hin : (s.step a r).1.in_trip = true := by
      rw [step_fst_in_trip, h3]
    have hst : (s.step a r).1.trip_start = s.time_elapsed := by
      rw [step_fst_trip_start, h3]
      simp
    have hdur : (s.step a r).1.trip_duration = s.min_trip_duration +
        (s.max_trip_duration - s.min_trip_duration) * r.duration_draw := by
      rw [step_fst_trip_duration, h3]
      simp
    have hcb : (s.step a r).2.beam_current = 0 := by
      rw [step_res_beam_current, h3]
    refine ⟨by rw [step_fst_in_trip, h3]; simp [hlt],
      fun _ => ⟨hst, hdur, ?_, hcb⟩, fun hc => absurd hlt hc, hold⟩
    intro hu0 hu1 hmm
    rw [hdur]
    constructor <;> nlinarith
  · have h3 := tripStep_normal (s.applyAct a) r h1 (by simpa using hlt)
    have hin : (s.step a r).1.in_trip = false := by
      rw [step_fst_in_trip, h3]
      exact h1
    have hcb : (s.step a r).2.beam_current = (s.applyAct a).beam_current := by
      rw [step_res_beam_current, h3]
    exact ⟨by rw [step_fst_in_trip, h3]; simp [hn, hlt],
      fun hc => absurd hc hlt, fun _ => ⟨hin, hcb⟩, hold⟩

/-- Witness for C6: a concrete trip entry (`0 < 12/3600`). -/
theorem trip_entry_and_hold_witness :
    simA.in_trip = false ∧
    randLo.trip_draw < simA.trip_prob_per_step * simA.time_step ∧
    (simA.step none randLo).1.in_trip = true ∧
    (simA.step none randLo).2.beam_current = 0 := by
  have hp : randLo.trip_draw < simA.trip_prob_per_step * simA.time_step := by
    norm_num [simA, Simulation.init, randLo]
  have h := trip_entry_and_hold simA none randLo rfl
  exact ⟨rfl, hp, h.1.mpr hp, (h.2.1 hp).2.2.2⟩

/-- Claim C7: the polarization `step()` computes before the clamp is the
base polarization plus the linear microwave term, so at equal dose and
trip outcome, two steps with frequencies `f1` and `f2` differ by exactly
`-0.0001 * (f1 - f2)` before clamping. -/
theorem microwave_linear (s : Simulation) (r : Rand) (f1 f2 : ℝ) :
    (∀ (a : Option SimAct),
      (s.step a r).2.polarization = max 0 (min 1 (s.stepPreClamp a r))) ∧
    s.stepPreClamp (some ⟨none, some f1⟩) r -
      s.stepPreClamp (some ⟨none, some f2⟩) r = -0.0001 * (f1 - f2) := by
  constructor
  · intro a
    rfl
  · have key : ∀ f : ℝ, s.stepPreClamp (some ⟨none, some f⟩) r =
        single_exponential_polarization
          (((s.tripStep r).1.doseStep (s.tripStep r).2).accumulated_dose)
          (((s.tripStep r).1.doseStep (s.tripStep r).2).pmax)
          (((s.tripStep r).1.doseStep (s.tripStep r).2).phi) +
          microwaveEffect f := by
      intro f
      simp only [Simulation.stepPreClamp, applyAct_freq, tripStep_set_freq,
        doseStep_set_freq, Simulation.preClampPol]
    rw [key f1, key f2]
    simp only [microwaveEffect]
    ring

end AIOP
